import Mathlib

/-!
# Verification of the lpck dependency-substitution-and-packaging pipeline

Shallow embedding of the core of `lpck` (src/index.ts, and the earlier
snapshot src/unnamed/part_000).  JS strings are modelled as `String`,
JS objects used as ordered string-to-string maps (the dependency fields
of a package manifest) as association lists `List (String × String)`,
absent fields (`undefined`) as `Option`, and `PackageJson` handles as a
pair of an in-memory manifest (`content`) and the on-disk manifest
(`disk`); `save()` copies the in-memory manifest to disk.
`structuredClone` on these pure values is the identity.
-/

/-- A JS object used as an ordered map from dependency name to
version-specifier-or-path (`PackageJson.Content["dependencies"]`). -/
abbrev DepsMap := List (String × String)

/-- The fields of a `package.json` the pipeline reads or writes:
`content.name`, `content.version` and the three dependency fields
(each possibly absent). -/
structure Manifest where
  name : String
  version : String
  dependencies : Option DepsMap
  devDependencies : Option DepsMap
  peerDependencies : Option DepsMap
deriving DecidableEq, Repr

/-- `AvailablePackage` from src/index.ts: the (name, archive-file-name)
projection of a registry entry. -/
structure AvailablePackage where
  name : String
  packName : String
deriving DecidableEq, Repr

/-- `WorkspaceInfo` from src/index.ts, with the `PackageJson` handle split
into the in-memory `manifest` (`packageJson.content`) and the on-disk
state `disk` (what `save()` last wrote; equal to `manifest` at load). -/
structure WorkspaceInfo where
  manifest : Manifest
  packName : String
  oldDependencies : DepsMap
  oldDevDependencies : DepsMap
  oldPeerDependencies : DepsMap
  disk : Manifest
deriving DecidableEq, Repr

/-- `path.join` on already-normalized segments. -/
def pathJoin (a b : String) : String := a ++ "/" ++ b

/-- Modelled from the spec: `os.homedir()` is an environment-supplied
constant, fixed (arbitrarily) for the run. -/
def homeDir : String := "/home/user"

/-- `LPCK_DIR = path.join(homeDir, ".lpck")` (src/index.ts line 48). -/
def LPCK_DIR : String := pathJoin homeDir ".lpck"

/-- `LPCK_PACK_DIR = path.join(LPCK_DIR, "packs")` (src/index.ts line 49). -/
def LPCK_PACK_DIR : String := pathJoin LPCK_DIR "packs"

/-- The sanitization inside `getPackName`:
`.replace(/@/g, "").replace(/\//g, "-")` — first remove every `@`, then
turn every `/` into `-`. -/
def sanitizeChars (l : List Char) : List Char :=
  (l.filter (fun c => c != '@')).map (fun c => if c = '/' then '-' else c)

/-- `getPackName` (src/index.ts lines 119–123, identical in
src/unnamed/part_000 lines 57–59): build
`` `${name}-${version}.tgz` `` and sanitize the whole string. -/
def getPackName (name version : String) : String :=
  ⟨sanitizeChars (name.data ++ "-".data ++ version.data ++ ".tgz".data)⟩

/-- `getPackDir` (src/index.ts lines 125–127). -/
def getPackDir (packName : String) : String := pathJoin LPCK_PACK_DIR packName

/-- What `WorkspaceHandler.load` stores for one package
(src/index.ts lines 165–198): the manifest handle, its archive name, and
`structuredClone`-snapshots of the three dependency fields, an empty map
when the field is absent (`?? {}`); `disk` starts equal to the content
just read from disk. -/
def loadInfo (m : Manifest) : WorkspaceInfo where
  manifest := m
  packName := getPackName m.name m.version
  oldDependencies := m.dependencies.getD []
  oldDevDependencies := m.devDependencies.getD []
  oldPeerDependencies := m.peerDependencies.getD []
  disk := m

/-- A `WorkspaceInfo` is in its just-loaded state: snapshots agree with
the manifest's fields (empty for absent fields), the archive name is the
computed one, and nothing has been written since the load. -/
def WorkspaceInfo.loaded (w : WorkspaceInfo) : Prop :=
  w.oldDependencies = w.manifest.dependencies.getD [] ∧
  w.oldDevDependencies = w.manifest.devDependencies.getD [] ∧
  w.oldPeerDependencies = w.manifest.peerDependencies.getD [] ∧
  w.packName = getPackName w.manifest.name w.manifest.version ∧
  w.disk = w.manifest

instance (w : WorkspaceInfo) : Decidable w.loaded := by
  unfold WorkspaceInfo.loaded; infer_instance

/-- `WorkspaceHandler.#packagesInfos`: the insertion-ordered map from
package name to `WorkspaceInfo`. -/
abbrev Registry := List (String × WorkspaceInfo)

/-- Every entry of the registry is in its just-loaded state. -/
def RegLoaded (reg : Registry) : Prop := ∀ p ∈ reg, p.2.loaded

instance (reg : Registry) : Decidable (RegLoaded reg) := by
  unfold RegLoaded; infer_instance

/-- The inner key loop of `updateToLocalPacks` (src/index.ts
lines 243–254) applied to one dependency field: every entry whose key
matches some available package name gets its value replaced by
`getPackDir` of the first matching package's archive name. -/
def substDeps (avail : List AvailablePackage) (ds : DepsMap) : DepsMap :=
  ds.map (fun kv =>
    match avail.find? (fun p => p.name == kv.1) with
    | some p => (kv.1, getPackDir p.packName)
    | none => kv)

/-- The names pushed onto `used` while scanning one dependency field
(src/index.ts line 250), in key order. -/
def usedOf (avail : List AvailablePackage) (ds : DepsMap) : List String :=
  ds.filterMap (fun kv => (avail.find? (fun p => p.name == kv.1)).map (fun p => p.name))

/-- Whether scanning one dependency field sets `changed` (some key
matches an available package name). -/
def anyMatch (avail : List AvailablePackage) (ds : DepsMap) : Bool :=
  ds.any (fun kv => avail.any (fun p => p.name == kv.1))

/-- The body of the per-package loop of `updateToLocalPacks`
(src/index.ts lines 229–262): substitute in each of the three present
dependency fields, and `save()` the manifest iff any key matched.
Returns the updated info and the names pushed onto `used`. -/
def updateEntry (avail : List AvailablePackage) (w : WorkspaceInfo) :
    WorkspaceInfo × List String :=
  let m := w.manifest
  let m' : Manifest :=
    { m with
      dependencies := m.dependencies.map (substDeps avail)
      devDependencies := m.devDependencies.map (substDeps avail)
      peerDependencies := m.peerDependencies.map (substDeps avail) }
  let changed : Bool :=
    (m.dependencies.map (anyMatch avail)).getD false ||
    (m.devDependencies.map (anyMatch avail)).getD false ||
    (m.peerDependencies.map (anyMatch avail)).getD false
  let used : List String :=
    (m.dependencies.map (usedOf avail)).getD [] ++
    (m.devDependencies.map (usedOf avail)).getD [] ++
    (m.peerDependencies.map (usedOf avail)).getD []
  ({ w with manifest := m', disk := if changed then m' else w.disk }, used)

/-- `WorkspaceHandler.updateToLocalPacks` (src/index.ts lines 219–264).
`availableDependencies` defaults to the projection of the whole registry.
NOTE (faithful to the source): the `return used;` statement at line 262
sits *inside* the `for (const packageInfo of ...)` loop, so only the
first registry entry is ever processed. -/
def updateToLocalPacks (availablePackages : Option (List AvailablePackage))
    (reg : Registry) : List String × Registry :=
  let avail := availablePackages.getD
    (reg.map (fun p =>
      { name := p.2.manifest.name
        packName := getPackName p.2.manifest.name p.2.manifest.version }))
  match reg with
  | [] => ([], [])
  | (n, w) :: rest =>
    let r := updateEntry avail w
    (r.2, (n, r.1) :: rest)

/-- One field of `WorkspaceHandler.restore` (src/index.ts lines 271–282):
write the snapshot back iff it is non-empty (`Object.keys(old).length > 0`),
otherwise leave the current value alone. -/
def restoreFld (old : DepsMap) (cur : Option DepsMap) : Option DepsMap :=
  if 0 < old.length then some old else cur

/-- The body of the per-package loop of `WorkspaceHandler.restore`
(src/index.ts lines 267–287): restore each originally non-empty field
and `save()` iff anything was restored. -/
def restoreEntry (w : WorkspaceInfo) : WorkspaceInfo :=
  let m := w.manifest
  let m' : Manifest :=
    { m with
      dependencies := restoreFld w.oldDependencies m.dependencies
      devDependencies := restoreFld w.oldDevDependencies m.devDependencies
      peerDependencies := restoreFld w.oldPeerDependencies m.peerDependencies }
  let changed : Bool :=
    decide (0 < w.oldDependencies.length) ||
    decide (0 < w.oldDevDependencies.length) ||
    decide (0 < w.oldPeerDependencies.length)
  { w with manifest := m', disk := if changed then m' else w.disk }

/-- `WorkspaceHandler.restore` (src/index.ts lines 266–288): the loop
runs over every registry entry. -/
def restore (reg : Registry) : Registry :=
  reg.map (fun p => (p.1, restoreEntry p.2))

/-- JS `str.endsWith(suffix)` (the test `f.endsWith(".tgz")` at
src/index.ts line 78): a suffix test on the character sequence. -/
def strEndsWith (f suf : String) : Bool := suf.data.isSuffixOf f.data

/-- `installAllPacks` (src/index.ts lines 72–98).  `dirExists` models
`existsSync(LPCK_PACK_DIR)` and `files` the `readdirSync` listing.
Result: `none` when the function returns without spawning the install
tool; `some args` when `npm install <args> --no-save` is spawned, where
`args` is `...(rawInstall ? [] : tgzPaths)` — the archive-path
arguments. -/
def installAllPacks (dirExists : Bool) (files : List String)
    (rawInstall : Bool) : Option (List String) :=
  if !dirExists then none
  else
    let tgzPaths := (files.filter (fun f => strEndsWith f ".tgz")).map
      (fun f => pathJoin LPCK_PACK_DIR f)
    if tgzPaths.length = 0 then none
    else some (if rawInstall then [] else tgzPaths)

namespace TargetWorkspace

/-- `TargetWorkspace.install` (src/index.ts lines 368–374): substitute
the available packages into the target registry (this `save()`s any
changed target manifest), then run `installAllPacks` over the pack
directory.  Returns the post-substitution target registry and the
archive-path arguments of the spawned install (or `none`). -/
def install (reg : Registry) (avail : List AvailablePackage)
    (dirExists : Bool) (files : List String) (rawInstall : Bool) :
    Registry × Option (List String) :=
  ((updateToLocalPacks (some avail) reg).2,
   installAllPacks dirExists files rawInstall)

end TargetWorkspace

namespace Part000

/-- The selection step of `TargetPackage.install`
(src/unnamed/part_000 lines 144–146): keep exactly the available
packages whose name is a declared dependency key of the target. -/
def selectToInstall (dependencies : DepsMap)
    (availablePackages : List AvailablePackage) : List AvailablePackage :=
  let dependencyNames := dependencies.map (fun kv => kv.1)
  availablePackages.filter (fun ap => dependencyNames.contains ap.name)

/-- `TargetPackage.install` (src/unnamed/part_000 lines 137–154):
returns the archive paths passed to `install`, or `none` when the
function returns early (no dependencies field, or empty selection). -/
def TargetPackage.install (dependencies : Option DepsMap)
    (availablePackages : List AvailablePackage) : Option (List String) :=
  match dependencies with
  | none => none
  | some deps =>
    let toInstall := selectToInstall deps availablePackages
    if toInstall.isEmpty then none
    else some (toInstall.map (fun ap => getPackDir ap.packName))

/-- `OriginPackage.updateDependencies` (src/unnamed/part_000
lines 95–112): unlike the later snapshot's `updateToLocalPacks`, this
loop runs over *every* workspace entry, rewrites only the
`dependencies` field (matching keys against the registry's own names),
and always `save()`s. -/
def updateDependencies (reg : Registry) : Registry :=
  let avail : List AvailablePackage :=
    reg.map (fun p => { name := p.1, packName := p.2.packName })
  reg.map (fun p =>
    match p.2.manifest.dependencies with
    | none => p
    | some ds =>
      let m' := { p.2.manifest with dependencies := some (substDeps avail ds) }
      (p.1, { p.2 with manifest := m', disk := m' }))

end Part000

/-! ## The orchestrated run (`LPCK.#install`, src/index.ts lines 554–576)

The run is modelled as a trace-producing, exception-carrying state
transformer over the origin registry.  `tryCatchFinally` is the generic
semantics of JavaScript `try { } catch { } finally { }` where the catch
handler swallows the exception. -/

/-- The externally observable steps of one `LPCK.#install` run. -/
inductive Event where
  | substitute
  | packAttempt
  | errorLogged
  | restoreRun
  | targetLoad
  | installRun
  | cleanup
deriving DecidableEq, Repr

/-- Result of a pipeline step: trace of events so far, the origin
registry state, and normal completion or a thrown value (the non-zero
exit status rejected by `pack`). -/
structure MResult (α : Type) where
  trace : List Event
  reg : Registry
  res : Except Nat α

/-- A pipeline step: origin registry in, `MResult` out. -/
abbrev M (α : Type) := Registry → MResult α

/-- Sequencing of two steps; a thrown value short-circuits. -/
def mbind {α β : Type} (x : M α) (f : α → M β) : M β := fun reg =>
  let r := x reg
  match r.res with
  | Except.ok a =>
    let r2 := f a r.reg
    ⟨r.trace ++ r2.trace, r2.reg, r2.res⟩
  | Except.error e => ⟨r.trace, r.reg, Except.error e⟩

/-- JavaScript `try { body } catch (e) { handler } finally { fin }`:
the finally block runs on every exit path of the body; the catch
handler swallows the body's exception (and here never throws, but the
general rule is modelled: an exception from the handler survives the
finally block). -/
def tryCatchFinally (body : M Unit) (handler : Nat → M Unit) (fin : M Unit) :
    M Unit := fun reg =>
  let r := body reg
  match r.res with
  | Except.ok _ =>
    let rf := fin r.reg
    ⟨r.trace ++ rf.trace, rf.reg, rf.res⟩
  | Except.error e =>
    let rh := handler e r.reg
    match rh.res with
    | Except.ok _ =>
      let rf := fin rh.reg
      ⟨r.trace ++ rh.trace ++ rf.trace, rf.reg, rf.res⟩
    | Except.error e2 =>
      let rf := fin rh.reg
      ⟨r.trace ++ rh.trace ++ rf.trace, rf.reg, Except.error e2⟩

/-- `originPackage.updateDependencies()` (src/index.ts line 560):
applies `updateToLocalPacks` to the origin registry. -/
def updateDependenciesM : M (List String) := fun reg =>
  let r := updateToLocalPacks none reg
  ⟨[Event.substitute], r.2, Except.ok r.1⟩

/-- `originPackage.pack()` (src/index.ts line 561): spawns
`npm pack`; rejects with the exit status on failure.  `packFails`
abstracts the external tool's outcome; the registry is untouched. -/
def packM (packFails : Bool) : M Unit := fun reg =>
  ⟨[Event.packAttempt], reg, if packFails then Except.error 1 else Except.ok ()⟩

/-- The catch block (src/index.ts line 563): logs and swallows. -/
def logErrorM (_e : Nat) : M Unit := fun reg =>
  ⟨[Event.errorLogged], reg, Except.ok ()⟩

/-- `originPackage.restoreDependencies()` in the finally block
(src/index.ts line 565). -/
def restoreM : M Unit := fun reg => ⟨[Event.restoreRun], restore reg, Except.ok ()⟩

/-- The tail of the run (src/index.ts lines 568–575): target load,
target install, pack-directory cleanup; none of it touches the origin
registry. -/
def targetPhaseM : M Unit := fun reg =>
  ⟨[Event.targetLoad, Event.installRun, Event.cleanup], reg, Except.ok ()⟩

/-- `LPCK.#install` (src/index.ts lines 554–576) restricted to its
effect on the origin registry:
`try { updateDependencies; pack } catch (e) { log } finally { restore }`
followed by the target phase. -/
def runInstall (packFails : Bool) : M Unit :=
  mbind
    (tryCatchFinally (mbind updateDependenciesM (fun _ => packM packFails))
      logErrorM restoreM)
    (fun _ => targetPhaseM)

/-- The key sets of the three dependency fields of a manifest
(`Option.map` keeps "absent" distinguishable from "empty"). -/
def depKeys (m : Manifest) :
    Option (List String) × Option (List String) × Option (List String) :=
  (m.dependencies.map (List.map Prod.fst),
   m.devDependencies.map (List.map Prod.fst),
   m.peerDependencies.map (List.map Prod.fst))

/-! ## Concrete inputs used by counterexamples, failing-input
evaluations and witnesses -/

/-- Origin member `A`, depending on member `B`. -/
def c2mA : Manifest := ⟨"A", "1.0.0", some [("B", "^1.0.0")], none, none⟩

/-- Origin member `B`, depending on member `A`. -/
def c2mB : Manifest := ⟨"B", "1.0.0", some [("A", "^1.0.0")], none, none⟩

/-- A two-member origin registry in which each member references the
other. -/
def c2reg : Registry := [("A", loadInfo c2mA), ("B", loadInfo c2mB)]

/-- A target manifest declaring a single dependency on `B`. -/
def c5man : Manifest := ⟨"app", "1.0.0", some [("B", "^1.0.0")], none, none⟩

/-- The target registry as loaded for `c5man` (no workspaces, root
included). -/
def c5reg : Registry := [("app", loadInfo c5man)]

/-- A loaded one-member origin registry with all three dependency
fields non-empty, for witnesses. -/
def c3man : Manifest :=
  ⟨"A", "1.0.0", some [("B", "^1.0.0")], some [("T", "^2.0.0")], some [("P", "^3.0.0")]⟩

/-- The loaded registry for `c3man`. -/
def c3reg : Registry := [("A", loadInfo c3man)]

/-- A workspace entry whose original `dependencies` snapshot is
non-empty while its original `devDependencies` snapshot is empty, the
current `devDependencies` holding a value substitution could have
produced. -/
def c9w : WorkspaceInfo where
  manifest := ⟨"A", "1.0.0", some [("B", "/packs/B.tgz")], some [("D", "/packs/D.tgz")], none⟩
  packName := "A-1.0.0.tgz"
  oldDependencies := [("B", "^1.0.0")]
  oldDevDependencies := []
  oldPeerDependencies := []
  disk := ⟨"A", "1.0.0", some [("B", "^1.0.0")], some [("D", "/packs/D.tgz")], none⟩

/-! ## Helper lemmas -/

/-- The sanitization is the identity on strings containing neither `@`
nor `/`. -/
theorem sanitizeChars_eq_self (l : List Char) :
    (∀ c ∈ l, c ≠ '@' ∧ c ≠ '/') → sanitizeChars l = l := by
  induction l with
  | nil => intro _; rfl
  | cons x xs ih =>
    intro h
    have hx := h x (List.mem_cons_self x xs)
    have hxs : ∀ c ∈ xs, c ≠ '@' ∧ c ≠ '/' :=
      fun c hc => h c (List.mem_cons_of_mem x hc)
    simp only [sanitizeChars] at ih ⊢
    rw [List.filter_cons, if_pos (bne_iff_ne.mpr hx.1), List.map_cons,
      if_neg hx.2, ih hxs]

/-- Splitting around a separator character: if neither prefix contains
`'-'`, equal separated concatenations have equal parts. -/
theorem sep_append_inj (a : List Char) :
    ∀ (a' b b' : List Char), (∀ c ∈ a, c ≠ '-') → (∀ c ∈ a', c ≠ '-') →
      a ++ '-' :: b = a' ++ '-' :: b' → a = a' ∧ b = b' := by
  induction a with
  | nil =>
    intro a' b b' _ ha' h
    cases a' with
    | nil => simpa using h
    | cons y ys =>
      exfalso
      simp only [List.nil_append, List.cons_append, List.cons.injEq] at h
      exact ha' y (List.mem_cons_self y ys) h.1.symm
  | cons x xs ih =>
    intro a' b b' ha ha' h
    cases a' with
    | nil =>
      exfalso
      simp only [List.nil_append, List.cons_append, List.cons.injEq] at h
      exact ha x (List.mem_cons_self x xs) h.1
    | cons y ys =>
      simp only [List.cons_append, List.cons.injEq] at h
      have hr := ih ys b b'
        (fun c hc => ha c (List.mem_cons_of_mem x hc))
        (fun c hc => ha' c (List.mem_cons_of_mem y hc)) h.2
      exact ⟨by rw [h.1, hr.1], hr.2⟩

/-- Concatenation preserves freedom from `@` and `/`. -/
theorem no_at_slash_append (l1 l2 : List Char)
    (h1 : ∀ c ∈ l1, c ≠ '@' ∧ c ≠ '/') (h2 : ∀ c ∈ l2, c ≠ '@' ∧ c ≠ '/') :
    ∀ c ∈ l1 ++ l2, c ≠ '@' ∧ c ≠ '/' := by
  intro c hc
  rcases List.mem_append.mp hc with h | h
  exacts [h1 c h, h2 c h]

/-- `substDeps` only rewrites values: the key list is unchanged. -/
theorem substDeps_keys (avail : List AvailablePackage) (ds : DepsMap) :
    (substDeps avail ds).map Prod.fst = ds.map Prod.fst := by
  induction ds with
  | nil => rfl
  | cons kv rest ih =>
    simp only [substDeps, List.map_cons] at ih ⊢
    cases hfind : avail.find? (fun p => p.name == kv.1) <;> simp [hfind, ih]

/-- `substDeps` on an optional field preserves the optional key list. -/
theorem substOpt_keys (avail : List AvailablePackage) (cur : Option DepsMap) :
    Option.map (List.map Prod.fst ∘ substDeps avail) cur =
      Option.map (List.map Prod.fst) cur := by
  cases cur <;> simp [Function.comp, substDeps_keys]

/-- Restoring a field against the snapshot taken of that very field is
the identity. -/
theorem restoreFld_getD_self (cur : Option DepsMap) :
    restoreFld (cur.getD []) cur = cur := by
  cases cur with
  | none => simp [restoreFld]
  | some ds => cases ds <;> simp [restoreFld]

/-- Restoring a substituted field against the snapshot of its original
value recovers the original value. -/
theorem restoreFld_getD_subst (avail : List AvailablePackage) (cur : Option DepsMap) :
    restoreFld (cur.getD []) (cur.map (substDeps avail)) = cur := by
  cases cur with
  | none => simp [restoreFld]
  | some ds => cases ds <;> simp [restoreFld, substDeps]

/-- If one field's scan of `updateToLocalPacks` set `changed`, that
field was present with at least one entry. -/
theorem anyMatch_getD_length (avail : List AvailablePackage) (cur : Option DepsMap)
    (h : (cur.map (anyMatch avail)).getD false = true) : 0 < (cur.getD []).length := by
  cases cur with
  | none => simp at h
  | some ds =>
    cases ds with
    | nil => simp [anyMatch] at h
    | cons a l => simp

/-- A just-loaded entry is a fixed point of `restoreEntry`. -/
theorem restoreEntry_loaded (w : WorkspaceInfo) (h : w.loaded) :
    restoreEntry w = w := by
  obtain ⟨h1, h2, h3, -, h5⟩ := h
  cases w with
  | mk m pn od odv opv dsk =>
    simp only at h1 h2 h3 h5
    subst h1; subst h2; subst h3; subst h5
    cases dsk with
    | mk nm vr d dv pv =>
      simp only [restoreEntry, restoreFld_getD_self]
      split <;> rfl

/-- Round trip on a single just-loaded entry: restoring after
substitution is the identity, in memory and on disk. -/
theorem restoreEntry_updateEntry (avail : List AvailablePackage) (w : WorkspaceInfo)
    (h : w.loaded) : restoreEntry (updateEntry avail w).1 = w := by
  obtain ⟨h1, h2, h3, -, h5⟩ := h
  cases w with
  | mk m pn od odv opv dsk =>
    simp only at h1 h2 h3 h5
    subst h1; subst h2; subst h3; subst h5
    cases dsk with
    | mk nm vr d dv pv =>
      simp only [updateEntry, restoreEntry, restoreFld_getD_subst,
        WorkspaceInfo.mk.injEq, Manifest.mk.injEq]
      refine ⟨trivial, trivial, trivial, trivial, trivial, ?_⟩
      split
      · rfl
      · split
        · rename_i hR hU
          exfalso
          simp only [Bool.or_eq_true, decide_eq_true_eq, not_or] at hR
          rcases (Bool.or_eq_true _ _).mp hU with hU' | hU3
          · rcases (Bool.or_eq_true _ _).mp hU' with hU1 | hU2
            · exact hR.1.1 (anyMatch_getD_length avail d hU1)
            · exact hR.1.2 (anyMatch_getD_length avail dv hU2)
          · exact hR.2 (anyMatch_getD_length avail pv hU3)
        · rfl

/-- `restore` on a just-loaded registry is the identity. -/
theorem restore_loaded (reg : Registry) (h : RegLoaded reg) : restore reg = reg := by
  induction reg with
  | nil => rfl
  | cons p rest ih =>
    have hp := h p (List.mem_cons_self p rest)
    have hrest : RegLoaded rest := fun q hq => h q (List.mem_cons_of_mem p hq)
    simp only [restore, List.map_cons]
    rw [restoreEntry_loaded p.2 hp]
    have ht := ih hrest
    simp only [restore] at ht
    rw [ht]

/-- `restore` after `updateToLocalPacks` recovers the loaded registry
exactly: the substituted head entry is restored by
`restoreEntry_updateEntry`, and every untouched entry is a fixed point
of `restoreEntry`. -/
theorem restore_updateToLocalPacks (availablePackages : Option (List AvailablePackage))
    (reg : Registry) (h : RegLoaded reg) :
    restore (updateToLocalPacks availablePackages reg).2 = reg := by
  cases reg with
  | nil => rfl
  | cons p rest =>
    cases p with
    | mk n w =>
      have hw : w.loaded := h (n, w) (List.mem_cons_self _ _)
      have hrest : RegLoaded rest := fun q hq => h q (List.mem_cons_of_mem _ hq)
      simp only [updateToLocalPacks, restore, List.map_cons]
      rw [restoreEntry_updateEntry _ w hw]
      have ht := restore_loaded rest hrest
      simp only [restore] at ht
      rw [ht]

/-- Substitution never adds or removes dependency keys: the key sets of
all three fields are unchanged, in memory and (whatever the `changed`
flag decides) on disk. -/
theorem updateEntry_depKeys (avail : List AvailablePackage) (w : WorkspaceInfo)
    (h : w.disk = w.manifest) :
    depKeys (updateEntry avail w).1.manifest = depKeys w.manifest ∧
    depKeys (updateEntry avail w).1.disk = depKeys w.manifest := by
  constructor
  · simp [updateEntry, depKeys, Option.map_map, substOpt_keys]
  · simp only [updateEntry]
    split
    · simp [depKeys, Option.map_map, substOpt_keys]
    · rw [h]

/-! ## Claim theorems -/

/-- C1 (confirmed): in every run — the external pack step succeeding or
raising `PackagingError` — the revert operation executes exactly once,
strictly after the pack attempt, and afterwards the origin registry
(all manifests, in memory and on disk) equals its pre-run state, so the
origin manifests' dependency fields equal their pre-run snapshots. -/
theorem C1_restore_guard (reg : Registry) (packFails : Bool) (h : RegLoaded reg) :
    ((runInstall packFails reg).trace.count Event.restoreRun = 1 ∧
      ∃ pre post, (runInstall packFails reg).trace = pre ++ Event.restoreRun :: post ∧
        Event.packAttempt ∈ pre) ∧
    (runInstall packFails reg).reg = reg := by
  have hreg : (runInstall packFails reg).reg = reg := by
    cases packFails
    · exact restore_updateToLocalPacks none reg h
    · exact restore_updateToLocalPacks none reg h
  refine ⟨?_, hreg⟩
  cases packFails
  · have ht : (runInstall false reg).trace =
        [Event.substitute, Event.packAttempt, Event.restoreRun,
         Event.targetLoad, Event.installRun, Event.cleanup] := rfl
    rw [ht]
    exact ⟨by decide, [Event.substitute, Event.packAttempt],
      [Event.targetLoad, Event.installRun, Event.cleanup], by decide, by decide⟩
  · have ht : (runInstall true reg).trace =
        [Event.substitute, Event.packAttempt, Event.errorLogged, Event.restoreRun,
         Event.targetLoad, Event.installRun, Event.cleanup] := rfl
    rw [ht]
    exact ⟨by decide, [Event.substitute, Event.packAttempt, Event.errorLogged],
      [Event.targetLoad, Event.installRun, Event.cleanup], by decide, by decide⟩

/-- Witness for C1 at a concrete loaded one-member registry with the
pack step failing. -/
theorem C1_restore_guard_witness :
    ((runInstall true c3reg).trace.count Event.restoreRun = 1 ∧
      ∃ pre post, (runInstall true c3reg).trace = pre ++ Event.restoreRun :: post ∧
        Event.packAttempt ∈ pre) ∧
    (runInstall true c3reg).reg = c3reg :=
  C1_restore_guard c3reg true (by decide)

/-- C2 (code bug): in the registry `c2reg` = [A depends on B, B depends
on A], both members' dependencies match known package names, yet
`updateToLocalPacks` substitutes only the first member (`A`); member
`B`'s matching entry `A ↦ "^1.0.0"` is left unsubstituted, because the
`return used;` at src/index.ts line 262 sits inside the per-package
loop.  The claim (and the surrounding code: the `used` accumulator, the
`restore` loop over all entries, and the earlier snapshot's
`updateDependencies` loop in src/unnamed/part_000 lines 95–112) shows
visiting every entry is the intent. -/
theorem C2_substitution_first_entry_only :
    (updateToLocalPacks none c2reg).2.map (fun p => p.2.manifest.dependencies) =
      [some [("B", getPackDir "B-1.0.0.tgz")], some [("A", "^1.0.0")]] := by decide

/-- C3 (confirmed): for a loaded registry (with non-empty original
dependency fields, as the claim assumes), `revert` after `apply` yields
manifests equal to the pre-substitution snapshots — here literal
equality of the whole registry, which implies equality of every
dependency field modulo (indeed including) key ordering. -/
theorem C3_round_trip (reg : Registry) (availablePackages : Option (List AvailablePackage))
    (hload : RegLoaded reg)
    (_hne : ∀ p ∈ reg, p.2.oldDependencies ≠ [] ∧ p.2.oldDevDependencies ≠ [] ∧
      p.2.oldPeerDependencies ≠ []) :
    restore (updateToLocalPacks availablePackages reg).2 = reg :=
  restore_updateToLocalPacks availablePackages reg hload

/-- Witness for C3 at a concrete one-member registry with all three
original dependency fields non-empty. -/
theorem C3_round_trip_witness :
    restore (updateToLocalPacks none c3reg).2 = c3reg :=
  C3_round_trip c3reg none (by decide) (by decide)

/-- C4 (corrected, counterexample): with the archive directory holding
exactly 3 archives and `rawInstall = true`, the install tool is spawned
with *no* archive path arguments (`...(rawInstall ? [] : tgzPaths)` at
src/index.ts line 88), not — as the claim says — with all 3 archive
paths. -/
theorem C4_counterexample :
    installAllPacks true ["a.tgz", "b.tgz", "c.tgz"] true = some [] ∧
    installAllPacks true ["a.tgz", "b.tgz", "c.tgz"] true ≠
      some [pathJoin LPCK_PACK_DIR "a.tgz", pathJoin LPCK_PACK_DIR "b.tgz",
        pathJoin LPCK_PACK_DIR "c.tgz"] := by decide

/-- C4 (amended): when `rawMode` is true and the archive directory
exists and holds at least one `.tgz` file, the install tool is invoked
with an empty archive-path argument list — ignoring both the selected
set and the archives present (consistent with the tool's own help text:
"Run install without specifying the packages to install"). -/
theorem C4_raw_mode_no_paths (files : List String)
    (h : files.filter (fun f => strEndsWith f ".tgz") ≠ []) :
    installAllPacks true files true = some [] := by
  have hc : ¬(((files.filter (fun f => strEndsWith f ".tgz")).map
      (fun f => pathJoin LPCK_PACK_DIR f)).length = 0) := by
    simpa [List.length_eq_zero] using h
  simp [installAllPacks, hc]
  obtain ⟨x, hx⟩ := List.exists_mem_of_ne_nil _ h
  have hx' := List.mem_filter.mp hx
  exact ⟨x, hx'.1, hx'.2⟩

/-- Witness for the amended C4 at a one-archive directory. -/
theorem C4_raw_mode_no_paths_witness :
    installAllPacks true ["a.tgz"] true = some [] :=
  C4_raw_mode_no_paths ["a.tgz"] (by decide)

/-- C5 (corrected, counterexample): a target declaring `B: "^1.0.0"`,
with `B` available; after `TargetWorkspace.install`, the target
manifest *on disk* is no longer its pre-run value — `updateToLocalPacks`
rewrote the value of `B` to the archive path and `save()`d it, contrary
to the claim that the manifest on disk is left unchanged. -/
theorem C5_counterexample :
    (TargetWorkspace.install c5reg [⟨"B", "B-1.0.0.tgz"⟩] true ["B-1.0.0.tgz"] false).1.map
        (fun p => p.2.disk) ≠ [c5man] := by decide

/-- C5 (amended): when `rawMode` is false (and ≥ 1 `.tgz` is present),
the install tool is invoked with the paths of *every* `.tgz` file in
the archive directory — not a list built from the selected set — in
no-save mode; the substitution step may persist rewritten values of
existing matching dependency keys into the target manifest, but no
dependency key is added to or removed from any target manifest, in
memory or on disk. -/
theorem C5_install_phase_behavior (reg : Registry) (avail : List AvailablePackage)
    (files : List String) (hload : RegLoaded reg)
    (hne : files.filter (fun f => strEndsWith f ".tgz") ≠ []) :
    (TargetWorkspace.install reg avail true files false).2 =
      some ((files.filter (fun f => strEndsWith f ".tgz")).map
        (fun f => pathJoin LPCK_PACK_DIR f)) ∧
    List.Forall₂
      (fun o f => depKeys f.2.manifest = depKeys o.2.manifest ∧
        depKeys f.2.disk = depKeys o.2.manifest)
      reg (TargetWorkspace.install reg avail true files false).1 := by
  constructor
  · show installAllPacks true files false = _
    have hc : ¬(((files.filter (fun f => strEndsWith f ".tgz")).map
        (fun f => pathJoin LPCK_PACK_DIR f)).length = 0) := by
      simpa [List.length_eq_zero] using hne
    simp [installAllPacks, hc]
    obtain ⟨x, hx⟩ := List.exists_mem_of_ne_nil _ hne
    have hx' := List.mem_filter.mp hx
    exact ⟨x, hx'.1, hx'.2⟩
  · show List.Forall₂ _ reg (updateToLocalPacks (some avail) reg).2
    cases reg with
    | nil => exact List.Forall₂.nil
    | cons p rest =>
      cases p with
      | mk n w =>
        have hw : w.loaded := hload (n, w) (List.mem_cons_self _ _)
        have hrest : RegLoaded rest := fun q hq => hload q (List.mem_cons_of_mem _ hq)
        simp only [updateToLocalPacks]
        refine List.Forall₂.cons ?_ ?_
        · exact updateEntry_depKeys _ w hw.2.2.2.2
        · exact (List.forall₂_same).mpr (fun q hq => ⟨rfl, by rw [(hrest q hq).2.2.2.2]⟩)

/-- Witness for the amended C5 at the concrete target of the
counterexample. -/
theorem C5_install_phase_behavior_witness :
    (TargetWorkspace.install c5reg [⟨"B", "B-1.0.0.tgz"⟩] true ["B-1.0.0.tgz"] false).2 =
      some (((["B-1.0.0.tgz"] : List String).filter (fun f => strEndsWith f ".tgz")).map
        (fun f => pathJoin LPCK_PACK_DIR f)) ∧
    List.Forall₂
      (fun o f => depKeys f.2.manifest = depKeys o.2.manifest ∧
        depKeys f.2.disk = depKeys o.2.manifest)
      c5reg (TargetWorkspace.install c5reg [⟨"B", "B-1.0.0.tgz"⟩] true ["B-1.0.0.tgz"] false).1 :=
  C5_install_phase_behavior c5reg [⟨"B", "B-1.0.0.tgz"⟩] ["B-1.0.0.tgz"] (by decide) (by decide)

/-- C6 (confirmed): the selection inside `TargetPackage.install`
returns exactly the available (name, archiveName) pairs whose name is a
key of the target's `dependencies` field — never a pair absent from the
target's dependencies, never omitting one present in both — and keeps
them in `availablePackages`' order (it is a sublist of it). -/
theorem C6_selectivity (dependencies : DepsMap) (availablePackages : List AvailablePackage) :
    (Part000.selectToInstall dependencies availablePackages).Sublist availablePackages ∧
    ∀ ap, ap ∈ Part000.selectToInstall dependencies availablePackages ↔
      (ap ∈ availablePackages ∧ ap.name ∈ dependencies.map (fun kv => kv.1)) := by
  constructor
  · exact List.filter_sublist _
  · intro ap
    simp [Part000.selectToInstall, List.mem_filter, List.contains]

/-- C7 (confirmed): `archiveName` is a pure function — equal inputs
give identical output — and
`archiveName("@scope/pkg", "1.2.3") = "scope-pkg-1.2.3.tgz"`. -/
theorem C7_archive_name_det (n v n' v' : String) (hn : n = n') (hv : v = v') :
    getPackName n v = getPackName n' v' ∧
    getPackName "@scope/pkg" "1.2.3" = "scope-pkg-1.2.3.tgz" := by
  subst hn; subst hv; exact ⟨rfl, by decide⟩

/-- Witness for C7 at its concrete input. -/
theorem C7_archive_name_det_witness :
    getPackName "@scope/pkg" "1.2.3" = getPackName "@scope/pkg" "1.2.3" ∧
    getPackName "@scope/pkg" "1.2.3" = "scope-pkg-1.2.3.tgz" :=
  C7_archive_name_det "@scope/pkg" "1.2.3" "@scope/pkg" "1.2.3" rfl rfl

/-- C8 (corrected, counterexample): `archiveName` is *not* injective on
distinct (name, version) pairs — the distinct valid npm names `@a/b`
and `a-b` at the same version collide, both sanitizing to
`a-b-1.0.0.tgz`. -/
theorem C8_counterexample :
    getPackName "@a/b" "1.0.0" = getPackName "a-b" "1.0.0" ∧
    ("@a/b", "1.0.0") ≠ (("a-b", "1.0.0") : String × String) := by decide

/-- C8 (amended): `archiveName` is injective on (name, version) pairs
in which the name contains none of `@`, `/`, `-` and the version
contains neither `@` nor `/` (the version may contain `-`, as in
prerelease tags). -/
theorem C8_archive_name_inj_restricted (n v n' v' : String)
    (hn : ∀ c ∈ n.data, c ≠ '@' ∧ c ≠ '/' ∧ c ≠ '-')
    (hn' : ∀ c ∈ n'.data, c ≠ '@' ∧ c ≠ '/' ∧ c ≠ '-')
    (hv : ∀ c ∈ v.data, c ≠ '@' ∧ c ≠ '/')
    (hv' : ∀ c ∈ v'.data, c ≠ '@' ∧ c ≠ '/')
    (h : getPackName n v = getPackName n' v') : n = n' ∧ v = v' := by
  have hfix : ∀ c ∈ ("-".data : List Char), c ≠ '@' ∧ c ≠ '/' := by decide
  have htgz : ∀ c ∈ (".tgz".data : List Char), c ≠ '@' ∧ c ≠ '/' := by decide
  have hnw : ∀ c ∈ n.data, c ≠ '@' ∧ c ≠ '/' := fun c hc => ⟨(hn c hc).1, (hn c hc).2.1⟩
  have hnw' : ∀ c ∈ n'.data, c ≠ '@' ∧ c ≠ '/' := fun c hc => ⟨(hn' c hc).1, (hn' c hc).2.1⟩
  have hd : sanitizeChars (n.data ++ "-".data ++ v.data ++ ".tgz".data) =
      sanitizeChars (n'.data ++ "-".data ++ v'.data ++ ".tgz".data) := congrArg String.data h
  rw [sanitizeChars_eq_self _
        (no_at_slash_append _ _ (no_at_slash_append _ _ (no_at_slash_append _ _ hnw hfix) hv) htgz),
      sanitizeChars_eq_self _
        (no_at_slash_append _ _ (no_at_slash_append _ _ (no_at_slash_append _ _ hnw' hfix) hv') htgz)] at hd
  have hdash : ("-".data : List Char) = ['-'] := rfl
  rw [hdash] at hd
  have hd' : n.data ++ '-' :: (v.data ++ ".tgz".data) =
      n'.data ++ '-' :: (v'.data ++ ".tgz".data) := by
    simpa [List.append_assoc, List.singleton_append] using hd
  have hsplit := sep_append_inj n.data n'.data (v.data ++ ".tgz".data) (v'.data ++ ".tgz".data)
    (fun c hc => (hn c hc).2.2) (fun c hc => (hn' c hc).2.2) hd'
  exact ⟨String.ext hsplit.1, String.ext (List.append_cancel_right hsplit.2)⟩

/-- Witness for the amended C8 at concrete sanitization-free inputs. -/
theorem C8_archive_name_inj_restricted_witness :
    ("ab" : String) = "ab" ∧ ("1.0" : String) = "1.0" :=
  C8_archive_name_inj_restricted "ab" "1.0" "ab" "1.0"
    (by decide) (by decide) (by decide) (by decide) rfl

/-- C9 (confirmed): for each of the three dependency fields, `restore`
leaves the manifest's current value untouched when the original
snapshot of that field was empty, and writes the snapshot back verbatim
when it was non-empty. -/
theorem C9_restore_frame (w : WorkspaceInfo) :
    (w.oldDependencies = [] → (restoreEntry w).manifest.dependencies = w.manifest.dependencies) ∧
    (w.oldDependencies ≠ [] → (restoreEntry w).manifest.dependencies = some w.oldDependencies) ∧
    (w.oldDevDependencies = [] → (restoreEntry w).manifest.devDependencies = w.manifest.devDependencies) ∧
    (w.oldDevDependencies ≠ [] → (restoreEntry w).manifest.devDependencies = some w.oldDevDependencies) ∧
    (w.oldPeerDependencies = [] → (restoreEntry w).manifest.peerDependencies = w.manifest.peerDependencies) ∧
    (w.oldPeerDependencies ≠ [] → (restoreEntry w).manifest.peerDependencies = some w.oldPeerDependencies) := by
  refine ⟨fun h => ?_, fun h => ?_, fun h => ?_, fun h => ?_, fun h => ?_, fun h => ?_⟩ <;>
    simp [restoreEntry, restoreFld, h, List.length_pos]

/-- Witness for C9: an entry with an empty original `devDependencies`
snapshot keeps its current `devDependencies`, while its non-empty
original `dependencies` snapshot is written back verbatim. -/
theorem C9_restore_frame_witness :
    (restoreEntry c9w).manifest.devDependencies = c9w.manifest.devDependencies ∧
    (restoreEntry c9w).manifest.dependencies = some c9w.oldDependencies :=
  ⟨(C9_restore_frame c9w).2.2.1 (by decide), (C9_restore_frame c9w).2.1 (by decide)⟩

/-- C10 (confirmed): if the archive directory does not exist, or no
file in it ends in ".tgz", `installAllPacks` returns without invoking
the install tool at all, for either rawMode — so no `InstallError` can
arise. -/
theorem C10_noop_install (dirExists : Bool) (files : List String) (rawInstall : Bool)
    (h : dirExists = false ∨ files.filter (fun f => strEndsWith f ".tgz") = []) :
    installAllPacks dirExists files rawInstall = none := by
  rcases h with h | h
  · subst h; rfl
  · cases dirExists
    · rfl
    · simp [installAllPacks, h]

/-- Witness for C10: a directory holding only a non-archive file. -/
theorem C10_noop_install_witness :
    installAllPacks true ["readme.md"] false = none :=
  C10_noop_install true ["readme.md"] false (Or.inr (by decide))
